import Mathlib

/-!
Verification development for the airdancer-slack repository.

The repository under study ships its documentation (README, docs site) and a
single executable source file, `eleventy.config.js`, which configures the
static documentation site.  The Switch Registry & Command Dispatch Core that
the specification describes is therefore modelled here from the spec's own
words; `eleventy.config.js` is embedded directly from its source.
-/

namespace Airdancer

/-! ## Association-list helpers

The Entity Store maps string keys (user ids, switch ids, group names) to
records.  We use association lists with first-match lookup semantics. -/

/-- First-match lookup in an association list keyed by strings. -/
def alookup (k : String) : List (String × α) → Option α
  | [] => none
  | p :: ps => if p.1 = k then some p.2 else alookup k ps

/-- Apply a key-aware update function to every value of an association list,
keeping keys fixed. -/
def mapVals (g : String → α → α) (l : List (String × α)) : List (String × α) :=
  l.map (fun p => (p.1, g p.1 p.2))

theorem alookup_mapVals (g : String → α → α) (k : String) :
    ∀ l : List (String × α), alookup k (mapVals g l) = (alookup k l).map (g k)
  | [] => rfl
  | p :: ps => by
    by_cases h : p.1 = k
    · simp [mapVals, alookup, h]
    · simpa [mapVals, alookup, h] using alookup_mapVals g k ps

theorem alookup_append_left {k : String} {l₁ : List (String × α)} {v : α}
    (h : alookup k l₁ = some v) (l₂ : List (String × α)) :
    alookup k (l₁ ++ l₂) = some v := by
  induction l₁ with
  | nil => simp [alookup] at h
  | cons p ps ih =>
    by_cases hp : p.1 = k
    · simp [alookup, hp] at h ⊢; exact h
    · simp [alookup, hp] at h ⊢; exact ih h

theorem alookup_append_right {k : String} {l₁ : List (String × α)}
    (h : alookup k l₁ = none) (l₂ : List (String × α)) :
    alookup k (l₁ ++ l₂) = alookup k l₂ := by
  induction l₁ with
  | nil => rfl
  | cons p ps ih =>
    by_cases hp : p.1 = k
    · simp [alookup, hp] at h
    · simp [alookup, hp] at h ⊢; exact ih h

theorem alookup_eq_none_iff {k : String} {l : List (String × α)} :
    alookup k l = none ↔ ∀ p ∈ l, p.1 ≠ k := by
  induction l with
  | nil => simp [alookup]
  | cons p ps ih =>
    by_cases hp : p.1 = k
    · simp [alookup, hp]
    · simp [alookup, hp, ih]

/-! ## Data model

Modelled from the spec (§3 DATA MODEL): the core implementation is not part of
the provided source tree, so the entity records follow the spec's attribute
lists.  A User holds the foreign key to its zero-or-one owned Switch. -/

/-- Modelled from the spec: tracked online status of a Switch; discovery
creates a record with `online = unknown`, liveness events set online/offline. -/
inductive OnlineState
  | unknown
  | online
  | offline
deriving Repr, DecidableEq

/-- Modelled from the spec: a User record — `isAdmin`, `botherEnabled`, and the
foreign key to the zero-or-one owned Switch. -/
structure User where
  isAdmin : Bool
  botherEnabled : Bool
  switchId : Option String
deriving Repr, DecidableEq

/-- Modelled from the spec: the attributes of a freshly created user —
no admin rights, bother notifications enabled, no switch. -/
def defaultUser : User :=
  { isAdmin := false, botherEnabled := true, switchId := none }

/-- Modelled from the spec: a Switch record — last-known IP/hostname,
firmware/model metadata, `online` status, last-seen timestamp. -/
structure SwitchRec where
  ip : String
  hostname : String
  model : String
  firmware : String
  online : OnlineState
  lastSeen : Option Nat
deriving Repr, DecidableEq

/-- Modelled from the spec: the parsed fields of a Tasmota discovery payload
that the tracker consumes — switch id `t` plus informational metadata. -/
structure DiscoveryPayload where
  t : String
  ip : String
  hn : String
  md : String
  sw : String
deriving Repr, DecidableEq

/-- Modelled from the spec: the Entity Store — Users, discovered Switches and
Groups, the single source of truth for the core. -/
structure Store where
  users : List (String × User)
  switches : List (String × SwitchRec)
  groups : List (String × List String)
deriving Repr, DecidableEq

/-- The empty Entity Store the system boots with. -/
def emptyStore : Store := { users := [], switches := [], groups := [] }

/-- The switch currently registered to a user (lookup through the foreign key
held by the User record). -/
def Store.userSwitch (st : Store) (uid : String) : Option String :=
  (alookup uid st.users).bind (·.switchId)

/-- Whether a switch id has a record in the store (i.e. has been discovered). -/
def Store.discovered (st : Store) (sw : String) : Bool :=
  (alookup sw st.switches).isSome

/-- The current owner of a switch: the first user record whose foreign key
points at it. -/
def Store.ownerOf (st : Store) (sw : String) : Option String :=
  (st.users.find? (fun p => p.2.switchId = some sw)).map Prod.fst

/-- The tracked online state of a switch; a never-discovered switch is
`unknown`. -/
def Store.trackedState (st : Store) (sw : String) : OnlineState :=
  match alookup sw st.switches with
  | none => .unknown
  | some r => r.online

/-! ## Entity Store operations (modelled from the spec, §4.1 and §4.2) -/

/-- Modelled from the spec: the recoverable error kinds of §7. -/
inductive Err
  | NotFound
  | AlreadyOwned
  | AlreadyExists
  | Forbidden
  | NotEligible
deriving Repr, DecidableEq

/-- Insert a user record if the id is unseen (users are created lazily on
first interaction). -/
def ensureUser (users : List (String × User)) (uid : String) :
    List (String × User) :=
  match alookup uid users with
  | some _ => users
  | none => users ++ [(uid, defaultUser)]

/-- Clear the foreign key of every user currently pointing at a switch. -/
def clearOwner (users : List (String × User)) (sw : String) :
    List (String × User) :=
  mapVals (fun _ u => if u.switchId = some sw then { u with switchId := none } else u) users

/-- Point a user's foreign key at a switch. -/
def setOwner (users : List (String × User)) (uid sw : String) :
    List (String × User) :=
  mapVals (fun k u => if k = uid then { u with switchId := some sw } else u) users

/-- Modelled from the spec: `registerSwitch(switchId, userId)` — fails with
`NotFound` if the switch was never discovered; fails with `AlreadyOwned` if it
is owned by a different user and the caller lacks admin rights; on success
clears the previous owner (if any) and sets the new owner atomically. -/
def registerSwitch (st : Store) (sw uid : String) (callerIsAdmin : Bool) :
    Except Err Store :=
  match alookup sw st.switches with
  | none => .error .NotFound
  | some _ =>
    match st.ownerOf sw with
    | some owner =>
      if owner ≠ uid ∧ callerIsAdmin = false then .error .AlreadyOwned
      else .ok { st with users := setOwner (clearOwner (ensureUser st.users uid) sw) uid sw }
    | none =>
      .ok { st with users := setOwner (clearOwner (ensureUser st.users uid) sw) uid sw }

/-- Modelled from the spec: `unregisterSwitch(userId)` — clears ownership;
a no-op (not an error) if the user had no switch. -/
def unregisterSwitch (st : Store) (uid : String) : Store :=
  { st with users := mapVals (fun k u => if k = uid then { u with switchId := none } else u) st.users }

/-- Modelled from the spec: `setUserFlags(userId, isAdmin?, botherEnabled?)` —
updates the given flags of an existing user. -/
def setUserFlags (st : Store) (uid : String)
    (adminFlag botherFlag : Option Bool) : Store :=
  { st with users := mapVals (fun k u =>
      if k = uid then
        { u with isAdmin := adminFlag.getD u.isAdmin,
                 botherEnabled := botherFlag.getD u.botherEnabled }
      else u) st.users }

/-- Modelled from the spec: `createGroup` — fails with `AlreadyExists` on a
duplicate name. -/
def createGroup (st : Store) (name : String) : Except Err Store :=
  match alookup name st.groups with
  | some _ => .error .AlreadyExists
  | none => .ok { st with groups := st.groups ++ [(name, [])] }

/-- Modelled from the spec: `destroyGroup` removes the group by name. -/
def destroyGroup (st : Store) (name : String) : Store :=
  { st with groups := st.groups.filter (fun p => p.1 ≠ name) }

/-- Modelled from the spec: `addMembers` — idempotent set insertion of user
ids into a group's member list. -/
def addMembers (st : Store) (name : String) (uids : List String) : Store :=
  { st with groups := mapVals (fun k ms =>
      if k = name then uids.foldl (fun acc u => if u ∈ acc then acc else acc ++ [u]) ms
      else ms) st.groups }

/-- Modelled from the spec: `removeMembers` — idempotent set removal of user
ids from a group's member list. -/
def removeMembers (st : Store) (name : String) (uids : List String) : Store :=
  { st with groups := mapVals (fun k ms =>
      if k = name then ms.filter (fun u => u ∉ uids) else ms) st.groups }

/-- Build a fresh Switch record from a discovery payload: metadata from the
payload, `online = unknown`, never seen yet. -/
def freshSwitch (p : DiscoveryPayload) : SwitchRec :=
  { ip := p.ip, hostname := p.hn, model := p.md, firmware := p.sw,
    online := .unknown, lastSeen := none }

/-- Refresh the metadata fields of an existing Switch record from a discovery
payload, leaving liveness fields untouched. -/
def refreshMeta (r : SwitchRec) (p : DiscoveryPayload) : SwitchRec :=
  { r with ip := p.ip, hostname := p.hn, model := p.md, firmware := p.sw }

/-- Modelled from the spec: `onDiscoveryEvent(payload)` — extracts switch id
field `t`; if unseen, creates a Switch record with `online = unknown`;
otherwise refreshes metadata idempotently.  Never touches ownership. -/
def onDiscoveryEvent (st : Store) (p : DiscoveryPayload) : Store :=
  match alookup p.t st.switches with
  | none => { st with switches := st.switches ++ [(p.t, freshSwitch p)] }
  | some _ =>
    { st with switches :=
        mapVals (fun k r => if k = p.t then refreshMeta r p else r) st.switches }

/-- Modelled from the spec: `onLivenessEvent(switchId, status)` — updates the
Switch's `online` field and `lastSeen` (last-write-wins); a no-op for a switch
with no record. -/
def onLivenessEvent (st : Store) (sw : String) (isOnline : Bool) (ts : Nat) :
    Store :=
  { st with switches := mapVals (fun k r =>
      if k = sw then
        { r with online := if isOnline then .online else .offline, lastSeen := some ts }
      else r) st.switches }

/-! ## Operation traces -/

/-- Modelled from the spec: the Entity Store mutations reachable from inbound
device events and chat commands. -/
inductive Op
  | discover (p : DiscoveryPayload)
  | liveness (sw : String) (isOnline : Bool) (ts : Nat)
  | register (sw uid : String) (callerIsAdmin : Bool)
  | unregister (uid : String)
  | setFlags (uid : String) (adminFlag botherFlag : Option Bool)
  | groupCreate (name : String)
  | groupDestroy (name : String)
  | groupAdd (name : String) (uids : List String)
  | groupRemove (name : String) (uids : List String)

/-- Apply one operation; a failed fallible operation leaves the store
unchanged (errors are reported to the caller, never corrupt state). -/
def applyOp (st : Store) : Op → Store
  | .discover p => onDiscoveryEvent st p
  | .liveness sw isOnline ts => onLivenessEvent st sw isOnline ts
  | .register sw uid adm =>
    match registerSwitch st sw uid adm with
    | .ok st' => st'
    | .error _ => st
  | .unregister uid => unregisterSwitch st uid
  | .setFlags uid a b => setUserFlags st uid a b
  | .groupCreate n =>
    match createGroup st n with
    | .ok st' => st'
    | .error _ => st
  | .groupDestroy n => destroyGroup st n
  | .groupAdd n us => addMembers st n us
  | .groupRemove n us => removeMembers st n us

/-- The store reached by running a trace of operations from the empty store. -/
def runOps (tr : List Op) : Store :=
  tr.foldl applyOp emptyStore

/-! ## Ownership characterization lemmas -/

theorem alookup_ensureUser_self (users : List (String × User)) (uid : String) :
    ∃ v, alookup uid (ensureUser users uid) = some v := by
  unfold ensureUser
  cases h : alookup uid users with
  | some v => exact ⟨v, h⟩
  | none =>
    refine ⟨defaultUser, ?_⟩
    rw [alookup_append_right h]
    simp [alookup]

theorem alookup_ensureUser_other {u uid : String} (users : List (String × User))
    (hu : u ≠ uid) : alookup u (ensureUser users uid) = alookup u users := by
  unfold ensureUser
  cases h : alookup uid users with
  | some v => rfl
  | none =>
    cases h' : alookup u users with
    | some v => rw [alookup_append_left h']
    | none =>
      rw [alookup_append_right h']
      have : uid ≠ u := fun hh => hu hh.symm
      simp [alookup, this]

theorem registerSwitch_ok_parts {st : Store} {sw uid : String} {adm : Bool} {st' : Store}
    (h : registerSwitch st sw uid adm = .ok st') :
    st'.users = setOwner (clearOwner (ensureUser st.users uid) sw) uid sw ∧
    st'.switches = st.switches ∧ st'.groups = st.groups := by
  unfold registerSwitch at h
  split at h
  · cases h
  · split at h
    · split at h
      · cases h
      · cases h; exact ⟨rfl, rfl, rfl⟩
    · cases h; exact ⟨rfl, rfl, rfl⟩

theorem userSwitch_register_self {st : Store} {sw uid : String} {adm : Bool} {st' : Store}
    (h : registerSwitch st sw uid adm = .ok st') :
    st'.userSwitch uid = some sw := by
  unfold Store.userSwitch
  rw [(registerSwitch_ok_parts h).1]
  unfold setOwner clearOwner
  rw [alookup_mapVals, alookup_mapVals]
  obtain ⟨v, hv⟩ := alookup_ensureUser_self st.users uid
  rw [hv]
  simp

theorem userSwitch_register_other {st : Store} {sw uid : String} {adm : Bool} {st' : Store}
    (h : registerSwitch st sw uid adm = .ok st') {u : String} (hu : u ≠ uid) :
    st'.userSwitch u = if st.userSwitch u = some sw then none else st.userSwitch u := by
  unfold Store.userSwitch
  rw [(registerSwitch_ok_parts h).1]
  unfold setOwner clearOwner
  rw [alookup_mapVals, alookup_mapVals, alookup_ensureUser_other st.users hu]
  cases hv : alookup u st.users with
  | none => simp
  | some v =>
    by_cases hsw : v.switchId = some sw
    · simp [hsw, hu]
    · simp [hsw, hu]

theorem userSwitch_unregister (st : Store) (uid u : String) :
    (unregisterSwitch st uid).userSwitch u =
      if u = uid then none else st.userSwitch u := by
  simp only [unregisterSwitch, Store.userSwitch, alookup_mapVals]
  by_cases h : u = uid <;> cases hv : alookup u st.users <;> simp [h]

theorem userSwitch_setFlags (st : Store) (uid : String) (a b : Option Bool) (u : String) :
    (setUserFlags st uid a b).userSwitch u = st.userSwitch u := by
  simp only [setUserFlags, Store.userSwitch, alookup_mapVals]
  by_cases h : u = uid <;> cases hv : alookup u st.users <;> simp [h]

theorem userSwitch_discovery (st : Store) (p : DiscoveryPayload) (u : String) :
    (onDiscoveryEvent st p).userSwitch u = st.userSwitch u := by
  unfold onDiscoveryEvent
  split <;> rfl

theorem userSwitch_liveness (st : Store) (sw : String) (b : Bool) (ts : Nat) (u : String) :
    (onLivenessEvent st sw b ts).userSwitch u = st.userSwitch u := rfl

/-! ## The 1:1 ownership invariant -/

/-- Each switch has at most one owning user: ownership read through the
per-user foreign key is injective. -/
def OneToOne (st : Store) : Prop :=
  ∀ u₁ u₂ s, st.userSwitch u₁ = some s → st.userSwitch u₂ = some s → u₁ = u₂

theorem OneToOne.of_eq {st st' : Store}
    (h : ∀ u, st'.userSwitch u = st.userSwitch u) (ho : OneToOne st) :
    OneToOne st' := fun u₁ u₂ s h₁ h₂ => ho u₁ u₂ s (h u₁ ▸ h₁) (h u₂ ▸ h₂)

theorem oneToOne_register_ok {st : Store} {sw uid : String} {adm : Bool} {st' : Store}
    (h : registerSwitch st sw uid adm = .ok st') (ho : OneToOne st) :
    OneToOne st' := by
  intro u₁ u₂ s h₁ h₂
  by_cases e₁ : u₁ = uid <;> by_cases e₂ : u₂ = uid
  · rw [e₁, e₂]
  · exfalso
    rw [e₁, userSwitch_register_self h] at h₁
    rw [userSwitch_register_other h e₂] at h₂
    have hs : s = sw := (Option.some.injEq _ _).mp h₁.symm
    rw [hs] at h₂
    by_cases hc : st.userSwitch u₂ = some sw
    · rw [if_pos hc] at h₂; cases h₂
    · rw [if_neg hc] at h₂; exact hc h₂
  · exfalso
    rw [e₂, userSwitch_register_self h] at h₂
    rw [userSwitch_register_other h e₁] at h₁
    have hs : s = sw := (Option.some.injEq _ _).mp h₂.symm
    rw [hs] at h₁
    by_cases hc : st.userSwitch u₁ = some sw
    · rw [if_pos hc] at h₁; cases h₁
    · rw [if_neg hc] at h₁; exact hc h₁
  · rw [userSwitch_register_other h e₁] at h₁
    rw [userSwitch_register_other h e₂] at h₂
    by_cases c₁ : st.userSwitch u₁ = some sw
    · rw [if_pos c₁] at h₁; cases h₁
    · rw [if_neg c₁] at h₁
      by_cases c₂ : st.userSwitch u₂ = some sw
      · rw [if_pos c₂] at h₂; cases h₂
      · rw [if_neg c₂] at h₂
        exact ho u₁ u₂ s h₁ h₂

theorem oneToOne_applyOp {st : Store} (ho : OneToOne st) (op : Op) :
    OneToOne (applyOp st op) := by
  cases op with
  | discover p => exact OneToOne.of_eq (userSwitch_discovery st p) ho
  | liveness sw b ts => exact OneToOne.of_eq (userSwitch_liveness st sw b ts) ho
  | register sw uid adm =>
    show OneToOne (match registerSwitch st sw uid adm with
      | .ok st' => st'
      | .error _ => st)
    cases hr : registerSwitch st sw uid adm with
    | ok st' => exact oneToOne_register_ok hr ho
    | error e => exact ho
  | unregister uid =>
    intro u₁ u₂ s h₁ h₂
    rw [show applyOp st (.unregister uid) = unregisterSwitch st uid from rfl,
        userSwitch_unregister] at h₁ h₂
    by_cases e₁ : u₁ = uid
    · rw [if_pos e₁] at h₁; cases h₁
    · rw [if_neg e₁] at h₁
      by_cases e₂ : u₂ = uid
      · rw [if_pos e₂] at h₂; cases h₂
      · rw [if_neg e₂] at h₂
        exact ho u₁ u₂ s h₁ h₂
  | setFlags uid a b =>
    exact OneToOne.of_eq (userSwitch_setFlags st uid a b) ho
  | groupCreate n =>
    show OneToOne (match createGroup st n with
      | .ok st' => st'
      | .error _ => st)
    cases hr : createGroup st n with
    | ok st' =>
      have husers : st'.users = st.users := by
        unfold createGroup at hr
        split at hr
        · cases hr
        · cases hr; rfl
      exact OneToOne.of_eq
        (fun u => by unfold Store.userSwitch; rw [husers]) ho
    | error e => exact ho
  | groupDestroy n => exact OneToOne.of_eq (fun u => rfl) ho
  | groupAdd n us => exact OneToOne.of_eq (fun u => rfl) ho
  | groupRemove n us => exact OneToOne.of_eq (fun u => rfl) ho

theorem oneToOne_emptyStore : OneToOne emptyStore := by
  intro u₁ u₂ s h₁ h₂
  simp [Store.userSwitch, emptyStore, alookup] at h₁

theorem oneToOne_foldl (tr : List Op) :
    ∀ st : Store, OneToOne st → OneToOne (tr.foldl applyOp st) := by
  induction tr with
  | nil => exact fun st ho => ho
  | cons op tr ih => exact fun st ho => ih (applyOp st op) (oneToOne_applyOp ho op)

theorem oneToOne_runOps (tr : List Op) : OneToOne (runOps tr) :=
  oneToOne_foldl tr emptyStore oneToOne_emptyStore

/-! ## Which switches exist: only discovery creates switch records -/

theorem discovered_liveness (st : Store) (sw₀ : String) (b : Bool) (ts : Nat)
    (sw : String) :
    (onLivenessEvent st sw₀ b ts).discovered sw = st.discovered sw := by
  simp only [onLivenessEvent, Store.discovered, alookup_mapVals]
  cases alookup sw st.switches <;> rfl

theorem discovered_discover_other {p : DiscoveryPayload} {sw : String}
    (st : Store) (hp : p.t ≠ sw) :
    (onDiscoveryEvent st p).discovered sw = st.discovered sw := by
  unfold onDiscoveryEvent Store.discovered
  cases h : alookup p.t st.switches with
  | none =>
    simp only
    cases h' : alookup sw st.switches with
    | some v => rw [alookup_append_left h']
    | none =>
      rw [alookup_append_right h']
      simp [alookup, hp]
  | some r =>
    simp only [alookup_mapVals]
    cases alookup sw st.switches <;> rfl

theorem discovered_applyOp {st : Store} {op : Op} {sw : String}
    (h : ∀ p, op = .discover p → p.t ≠ sw) :
    (applyOp st op).discovered sw = st.discovered sw := by
  cases op with
  | discover p => exact discovered_discover_other st (h p rfl)
  | liveness sw₀ b ts => exact discovered_liveness st sw₀ b ts sw
  | register sw₀ uid adm =>
    show Store.discovered (match registerSwitch st sw₀ uid adm with
      | .ok st' => st'
      | .error _ => st) sw = st.discovered sw
    cases hr : registerSwitch st sw₀ uid adm with
    | ok st' =>
      unfold Store.discovered
      rw [(registerSwitch_ok_parts hr).2.1]
    | error e => rfl
  | unregister uid => rfl
  | setFlags uid a b => rfl
  | groupCreate n =>
    show Store.discovered (match createGroup st n with
      | .ok st' => st'
      | .error _ => st) sw = st.discovered sw
    cases hr : createGroup st n with
    | ok st' =>
      unfold createGroup at hr
      split at hr
      · cases hr
      · cases hr; rfl
    | error e => rfl
  | groupDestroy n => rfl
  | groupAdd n us => rfl
  | groupRemove n us => rfl

theorem not_discovered_foldl (tr : List Op) (sw : String) :
    ∀ st : Store, (∀ p, Op.discover p ∈ tr → p.t ≠ sw) →
      st.discovered sw = false → (tr.foldl applyOp st).discovered sw = false := by
  induction tr with
  | nil => exact fun st _ h => h
  | cons op tr ih =>
    intro st htr hst
    refine ih (applyOp st op) (fun p hp => htr p (List.mem_cons_of_mem _ hp)) ?_
    rw [discovered_applyOp (fun p hop => htr p (hop ▸ List.mem_cons_self _ _))]
    exact hst

theorem not_discovered_runOps {tr : List Op} {sw : String}
    (h : ∀ p, Op.discover p ∈ tr → p.t ≠ sw) :
    (runOps tr).discovered sw = false :=
  not_discovered_foldl tr sw emptyStore h rfl

theorem registerSwitch_notFound {st : Store} {sw uid : String} {adm : Bool}
    (h : st.discovered sw = false) :
    registerSwitch st sw uid adm = .error .NotFound := by
  unfold Store.discovered at h
  unfold registerSwitch
  cases h' : alookup sw st.switches with
  | none => rfl
  | some r => rw [h'] at h; cases h

/-! ## Discovery idempotence lemmas -/

theorem storeExt {s₁ s₂ : Store} (hu : s₁.users = s₂.users)
    (hs : s₁.switches = s₂.switches) (hg : s₁.groups = s₂.groups) : s₁ = s₂ := by
  cases s₁
  cases s₂
  rw [Store.mk.injEq]
  exact ⟨hu, hs, hg⟩

theorem onDiscoveryEvent_users (st : Store) (p : DiscoveryPayload) :
    (onDiscoveryEvent st p).users = st.users := by
  unfold onDiscoveryEvent
  split <;> rfl

theorem onDiscoveryEvent_groups (st : Store) (p : DiscoveryPayload) :
    (onDiscoveryEvent st p).groups = st.groups := by
  unfold onDiscoveryEvent
  split <;> rfl

theorem onDiscoveryEvent_switches_none {st : Store} {p : DiscoveryPayload}
    (h : alookup p.t st.switches = none) :
    (onDiscoveryEvent st p).switches = st.switches ++ [(p.t, freshSwitch p)] := by
  unfold onDiscoveryEvent
  rw [h]

theorem onDiscoveryEvent_switches_some {st : Store} {p : DiscoveryPayload}
    {r : SwitchRec} (h : alookup p.t st.switches = some r) :
    (onDiscoveryEvent st p).switches =
      mapVals (fun k v => if k = p.t then refreshMeta v p else v) st.switches := by
  unfold onDiscoveryEvent
  rw [h]

theorem onDiscoveryEvent_idem (st : Store) (p : DiscoveryPayload) :
    onDiscoveryEvent (onDiscoveryEvent st p) p = onDiscoveryEvent st p := by
  refine storeExt (by rw [onDiscoveryEvent_users]) ?_ (by rw [onDiscoveryEvent_groups])
  cases h : alookup p.t st.switches with
  | none =>
    have h₂ : alookup p.t (onDiscoveryEvent st p).switches = some (freshSwitch p) := by
      rw [onDiscoveryEvent_switches_none h, alookup_append_right h]
      simp [alookup]
    rw [onDiscoveryEvent_switches_some h₂, onDiscoveryEvent_switches_none h]
    unfold mapVals
    rw [List.map_append]
    congr 1
    · refine (List.map_congr_left (fun q hq => ?_)).trans (List.map_id st.switches)
      have hk : q.1 ≠ p.t := alookup_eq_none_iff.mp h q hq
      simp [hk]
    · simp [refreshMeta, freshSwitch]
  | some r =>
    have h₂ : alookup p.t (onDiscoveryEvent st p).switches = some (refreshMeta r p) := by
      rw [onDiscoveryEvent_switches_some h, alookup_mapVals, h]
      simp
    rw [onDiscoveryEvent_switches_some h₂, onDiscoveryEvent_switches_some h]
    unfold mapVals
    rw [List.map_map]
    refine List.map_congr_left (fun q hq => ?_)
    by_cases hk : q.1 = p.t <;> simp [Function.comp, hk, refreshMeta]

theorem onDiscoveryEvent_iterate_succ (p : DiscoveryPayload) :
    ∀ (n : Nat) (st : Store),
      (fun s => onDiscoveryEvent s p)^[n] (onDiscoveryEvent st p) =
        onDiscoveryEvent st p := by
  intro n
  induction n with
  | zero => exact fun st => rfl
  | succ n ih =>
    intro st
    rw [Function.iterate_succ_apply, onDiscoveryEvent_idem]
    exact ih st

theorem onDiscoveryEvent_fresh {st : Store} {p : DiscoveryPayload}
    (h : alookup p.t st.switches = none) :
    alookup p.t (onDiscoveryEvent st p).switches = some (freshSwitch p) := by
  unfold onDiscoveryEvent
  rw [h]
  simp only
  rw [alookup_append_right h]
  simp [alookup]

/-! ## Command Executor (modelled from the spec, §4.3) -/

/-- An outbound message to the messaging gateway: topic and payload. -/
structure Publish where
  topic : String
  payload : String
deriving Repr, DecidableEq

/-- Modelled from the spec: PendingCommand lifecycle states. -/
inductive PState
  | Sent
  | Acked
  | TimedOut
deriving Repr, DecidableEq

/-- Modelled from the spec: a PendingCommand — correlation key, requested
duration, issue timestamp, lifecycle state. -/
structure PendingCommand where
  key : Nat
  switchId : String
  durationSeconds : Nat
  issuedAt : Nat
  state : PState
deriving Repr, DecidableEq

/-- Modelled from the spec: the Command Executor's private state — the next
fresh correlation key, the PendingCommand table, and the log of every message
published to the gateway, tagged with the correlation key it belongs to. -/
structure Executor where
  nextKey : Nat
  pending : List PendingCommand
  published : List (Nat × Publish)
deriving Repr, DecidableEq

def emptyExecutor : Executor := { nextKey := 0, pending := [], published := [] }

/-- Modelled from the spec: the fixed grace margin added to the activation
duration to obtain the ack timeout (e.g. duration + 5s). -/
def graceMargin : Nat := 5

/-- The per-switch timed-power command topic: `cmnd/<switch>/TimedPower1`. -/
def cmdTopic (sw : String) : String := "cmnd/" ++ sw ++ "/TimedPower1"

/-- Modelled from the spec: the outcomes a Command Executor call can report. -/
inductive Outcome
  | success
  | deviceOffline
  | deviceUnresponsive
deriving Repr, DecidableEq

/-- Modelled from the spec: start of `activate(switchId, durationSeconds)` —
if the tracked state is `Offline`, short-circuit with `DeviceOffline` and no
publish; otherwise publish the timed-power command (duration in milliseconds)
under a fresh correlation key and record a `Sent` PendingCommand. -/
def startActivate (st : Store) (ex : Executor) (sw : String)
    (durationSeconds : Nat) (now : Nat) : Executor × Option Outcome :=
  if st.trackedState sw = .offline then
    (ex, some .deviceOffline)
  else
    ({ nextKey := ex.nextKey + 1,
       pending := ex.pending ++
         [{ key := ex.nextKey, switchId := sw, durationSeconds := durationSeconds,
            issuedAt := now, state := .Sent }],
       published := ex.published ++
         [(ex.nextKey, { topic := cmdTopic sw, payload := toString (durationSeconds * 1000) })] },
     none)

/-- Modelled from the spec: a matching result event marks the Sent
PendingCommand for that switch `Acked`.  No publish happens. -/
def onResultEvent (ex : Executor) (sw : String) : Executor :=
  { ex with pending := ex.pending.map (fun pc =>
      if pc.switchId = sw ∧ pc.state = .Sent then { pc with state := .Acked } else pc) }

/-- A Sent PendingCommand whose bounded wait (duration + grace margin) has
elapsed at time `now`. -/
def isExpired (pc : PendingCommand) (now : Nat) : Bool :=
  pc.state == PState.Sent &&
    decide (pc.issuedAt + pc.durationSeconds + graceMargin < now)

/-- Modelled from the spec: timeout handling — every Sent PendingCommand whose
bounded wait has elapsed transitions to `TimedOut` and a `DeviceUnresponsive`
outcome is reported for it.  No publish happens, i.e. no automatic retry. -/
def tick (ex : Executor) (now : Nat) : Executor × List (Nat × Outcome) :=
  ({ ex with pending := ex.pending.map (fun pc =>
      if isExpired pc now then { pc with state := .TimedOut } else pc) },
   (ex.pending.filter (fun pc => isExpired pc now)).map
     (fun pc => (pc.key, Outcome.deviceUnresponsive)))

/-- The inbound events the Command Executor reacts to. -/
inductive ExecEvent
  | start (sw : String) (durationSeconds : Nat) (now : Nat)
  | result (sw : String)
  | tickAt (now : Nat)

/-- One executor step (the outcome reporting is dropped; only the state
evolution matters for the publish-log properties). -/
def execStep (st : Store) (ex : Executor) : ExecEvent → Executor
  | .start sw d now => (startActivate st ex sw d now).1
  | .result sw => onResultEvent ex sw
  | .tickAt now => (tick ex now).1

/-- The executor state after a sequence of events, from the empty executor. -/
def runExec (st : Store) (evs : List ExecEvent) : Executor :=
  evs.foldl (execStep st) emptyExecutor

/-! ## Dispatch Engine (modelled from the spec, §4.4) -/

/-- A bother target: a single User or a Group's member set. -/
inductive Target
  | user (uid : String)
  | group (members : List String)
deriving Repr, DecidableEq

/-- Modelled from the spec: `resolveTarget(name)` — resolves a bother target
token to a single User or a Group's member-User-set; when both a User and a
Group carry the name, the User takes precedence. -/
def resolveTarget (st : Store) (name : String) : Option Target :=
  match alookup name st.users with
  | some _ => some (.user name)
  | none =>
    match alookup name st.groups with
    | some ms => some (.group ms)
    | none => none

/-- Whether a bother directed at a user can be delivered: the user exists,
has `botherEnabled = true` and has a registered switch. -/
def eligibleB (st : Store) (uid : String) : Bool :=
  match alookup uid st.users with
  | none => false
  | some u => u.botherEnabled && u.switchId.isSome

/-- Per-target outcome of a bother: the member's switch was activated, or the
member was skipped (no switch, or opted out). -/
inductive BotherOutcome
  | activated (uid : String) (sw : String)
  | skipped (uid : String)
deriving Repr, DecidableEq

/-- Modelled from the spec: `bother(callerId, targetToken, durationSeconds)` —
for a single User target, fails with `NotEligible` if the target has no
registered switch or `botherEnabled = false`; for a Group target, activates
every eligible member's switch independently and reports the rest as skipped,
never aborting the remaining members. -/
def bother (st : Store) (callerId : String) (targetToken : String)
    (durationSeconds : Nat) : Except Err (List BotherOutcome) :=
  match resolveTarget st targetToken with
  | none => .error .NotFound
  | some (.user uid) =>
    match alookup uid st.users with
    | none => .error .NotFound
    | some u =>
      if u.botherEnabled then
        match u.switchId with
        | some sw => .ok [.activated uid sw]
        | none => .error .NotEligible
      else .error .NotEligible
  | some (.group ms) =>
    .ok (ms.map (fun m =>
      match alookup m st.users with
      | some u =>
        if u.botherEnabled then
          match u.switchId with
          | some sw => BotherOutcome.activated m sw
          | none => BotherOutcome.skipped m
        else BotherOutcome.skipped m
      | none => BotherOutcome.skipped m))

/-! ## The documentation-site configuration, embedded from
`eleventy.config.js` -/

/-- A registration performed against the `eleventyConfig` object. -/
inductive Registration
  | passthroughCopy (path : String)
  | shortcode (name : String) (render : Nat → String)

/-- The mutable `eleventyConfig` argument: the list of registrations
performed on it, in call order. -/
structure EleventyConfig where
  registrations : List Registration

/-- `eleventyConfig.addPassthroughCopy(path)`. -/
def addPassthroughCopy (c : EleventyConfig) (path : String) : EleventyConfig :=
  { c with registrations := c.registrations ++ [.passthroughCopy path] }

/-- `eleventyConfig.addShortcode(name, fn)`. -/
def addShortcode (c : EleventyConfig) (name : String) (render : Nat → String) :
    EleventyConfig :=
  { c with registrations := c.registrations ++ [.shortcode name render] }

/-- The body of the `year` shortcode: renders the current year (from
`new Date().getFullYear()`) as a decimal string via template interpolation. -/
def yearShortcode (currentYear : Nat) : String := toString currentYear

/-- The `dir` entry of the returned configuration object. -/
structure EleventyDir where
  input : String
deriving Repr, DecidableEq

/-- The object returned by the default export. -/
structure EleventyReturn where
  dir : EleventyDir
deriving Repr, DecidableEq

/-- The default export of `eleventy.config.js`: two passthrough copies, the
`year` shortcode, and the returned `{dir: {input: "docs"}}` object. -/
def eleventyDefaultExport (c : EleventyConfig) : EleventyConfig × EleventyReturn :=
  let c₁ := addPassthroughCopy c "docs/img/"
  let c₂ := addPassthroughCopy c₁ "docs/css/"
  let c₃ := addShortcode c₂ "year" yearShortcode
  (c₃, { dir := { input := "docs" } })

/-! ## Publish-log lemmas: correlation keys are never reused -/

/-- The publish-log well-formedness invariant: every logged key is below the
next fresh key, and no key is logged twice. -/
def PubKeysOk (ex : Executor) : Prop :=
  (∀ q ∈ ex.published, q.1 < ex.nextKey) ∧ (ex.published.map Prod.fst).Nodup

theorem pubKeysOk_empty : PubKeysOk emptyExecutor :=
  ⟨fun q hq => absurd hq (List.not_mem_nil q), List.nodup_nil⟩

theorem pubKeysOk_startActivate (st : Store) {ex : Executor} (h : PubKeysOk ex)
    (sw : String) (d now : Nat) : PubKeysOk (startActivate st ex sw d now).1 := by
  unfold startActivate
  by_cases hoff : st.trackedState sw = .offline
  · rw [if_pos hoff]; exact h
  · rw [if_neg hoff]
    constructor
    · intro q hq
      rcases List.mem_append.mp hq with hq | hq
      · exact Nat.lt_trans (h.1 q hq) (Nat.lt_succ_self _)
      · rcases List.mem_singleton.mp hq with rfl
        exact Nat.lt_succ_self _
    · rw [List.map_append, List.nodup_append]
      refine ⟨h.2, List.nodup_singleton _, ?_⟩
      intro k hk hk'
      rcases List.mem_map.mp hk with ⟨q, hq, rfl⟩
      rcases List.mem_singleton.mp hk' with h'
      have := h.1 q hq
      rw [h'] at this
      exact absurd this (Nat.lt_irrefl _)

theorem pubKeysOk_execStep (st : Store) {ex : Executor} (h : PubKeysOk ex)
    (ev : ExecEvent) : PubKeysOk (execStep st ex ev) := by
  cases ev with
  | start sw d now => exact pubKeysOk_startActivate st h sw d now
  | result sw => exact h
  | tickAt now => exact h

theorem pubKeysOk_runExec (st : Store) (evs : List ExecEvent) :
    PubKeysOk (runExec st evs) := by
  suffices h : ∀ ex : Executor, PubKeysOk ex → PubKeysOk (evs.foldl (execStep st) ex) from
    h emptyExecutor pubKeysOk_empty
  induction evs with
  | nil => exact fun ex h => h
  | cons ev evs ih => exact fun ex h => ih (execStep st ex ev) (pubKeysOk_execStep st h ev)

theorem filter_key_length_le_one {l : List (Nat × Publish)}
    (h : (l.map Prod.fst).Nodup) (k : Nat) :
    (l.filter (fun q => q.1 == k)).length ≤ 1 := by
  induction l with
  | nil => exact Nat.zero_le 1
  | cons p ps ih =>
    rw [List.map_cons, List.nodup_cons] at h
    by_cases hp : p.1 = k
    · have hnone : ps.filter (fun q => q.1 == k) = [] := by
        rw [List.filter_eq_nil_iff]
        intro q hq hqk
        have hq1 : q.1 = k := by simpa using hqk
        have : p.1 ∈ List.map Prod.fst ps := by
          rw [hp, ← hq1]
          exact List.mem_map_of_mem Prod.fst hq
        exact h.1 this
      rw [List.filter_cons_of_pos (by simp [hp]), hnone]
      exact Nat.le_refl 1
    · rw [List.filter_cons_of_neg (by simp [hp])]
      exact ih h.2

/-! ## Concrete fixtures for the witnesses -/

/-- The discovery payload of the README's example message. -/
def pA : DiscoveryPayload :=
  { t := "tasmota_28D42B", ip := "10.42.0.214", hn := "tasmota-28D42B-5163",
    md := "Sonoff Basic", sw := "15.0.1.3" }

/-- A concrete online switch record. -/
def recA : SwitchRec :=
  { ip := "10.42.0.214", hostname := "tasmota-28D42B-5163", model := "Sonoff Basic",
    firmware := "15.0.1.3", online := .online, lastSeen := none }

/-- A store where user `u1` owns the discovered switch `s1`. -/
def stOwned : Store :=
  { users := [("u1", { isAdmin := false, botherEnabled := true, switchId := some "s1" })],
    switches := [("s1", recA)], groups := [] }

/-- The store `stOwned` after the admin reassignment of `s1` to `u2`. -/
def stOwnedReg : Store :=
  { users := [("u1", { isAdmin := false, botherEnabled := true, switchId := none }),
              ("u2", { isAdmin := false, botherEnabled := true, switchId := some "s1" })],
    switches := [("s1", recA)], groups := [] }

/-- A store where switch `s1` is discovered but unowned. -/
def stUnowned : Store :=
  { users := [("u1", { isAdmin := false, botherEnabled := true, switchId := none })],
    switches := [("s1", recA)], groups := [] }

/-- A store where switch `s1` is tracked `Offline`. -/
def stOff : Store :=
  { users := [], switches := [("s1", { recA with online := .offline })], groups := [] }

/-! ## The claims -/

/-- C1: At every instant reachable by any sequence of Entity Store operations,
switch ownership is 1:1 — each switch has at most one owning user and each
user has at most one switch — and after any successful
`registerSwitch(S, U2)` on a switch `S` previously owned by `U1`, the store
reflects `U2` as the single current owner of `S` and `U1` is left with no
switch. -/
theorem C1_ownership_one_to_one :
    (∀ (tr : List Op) (u₁ u₂ s : String),
        (runOps tr).userSwitch u₁ = some s →
        (runOps tr).userSwitch u₂ = some s → u₁ = u₂) ∧
    (∀ (tr : List Op) (u s₁ s₂ : String),
        (runOps tr).userSwitch u = some s₁ →
        (runOps tr).userSwitch u = some s₂ → s₁ = s₂) ∧
    (∀ (st st' : Store) (u₁ sw uid : String) (adm : Bool),
        st.userSwitch u₁ = some sw →
        registerSwitch st sw uid adm = .ok st' →
        st'.userSwitch uid = some sw ∧
        (∀ u, u ≠ uid → st'.userSwitch u ≠ some sw) ∧
        (u₁ ≠ uid → st'.userSwitch u₁ = none)) := by
  refine ⟨fun tr => oneToOne_runOps tr, ?_, ?_⟩
  · intro tr u s₁ s₂ h₁ h₂
    rw [h₁] at h₂
    exact (Option.some.injEq _ _).mp h₂
  · intro st st' u₁ sw uid adm h₁ hr
    refine ⟨userSwitch_register_self hr, ?_, ?_⟩
    · intro u hu hcontra
      rw [userSwitch_register_other hr hu] at hcontra
      by_cases hc : st.userSwitch u = some sw
      · rw [if_pos hc] at hcontra; cases hcontra
      · rw [if_neg hc] at hcontra; exact hc hcontra
    · intro hu
      rw [userSwitch_register_other hr hu, if_pos h₁]

/-- Witness for C1 at concrete inputs: the admin reassignment of `s1` from
`u1` to `u2`, and a concrete reachable trace. -/
theorem C1_ownership_one_to_one_witness :
    stOwnedReg.userSwitch "u2" = some "s1" ∧
    stOwnedReg.userSwitch "u1" = none ∧
    ("u1" : String) = "u1" :=
  ⟨(C1_ownership_one_to_one.2.2 stOwned stOwnedReg "u1" "s1" "u2" true rfl rfl).1,
   (C1_ownership_one_to_one.2.2 stOwned stOwnedReg "u1" "s1" "u2" true rfl rfl).2.2
     (by decide),
   C1_ownership_one_to_one.1
     [.discover pA, .register "tasmota_28D42B" "u1" false]
     "u1" "u1" "tasmota_28D42B" rfl rfl⟩

/-- C2: `registerSwitch(switchId, userId)` returns `NotFound` whenever the
switch id never appeared in a discovery event; returns `AlreadyOwned`
whenever the switch is currently owned by a different user and the caller is
not an admin; and succeeds for every registration of an unowned discovered
switch (in particular self-registration) and for every admin reassignment of
an owned switch. -/
theorem C2_registerSwitch_errors :
    (∀ (tr : List Op) (sw uid : String) (adm : Bool),
        (∀ p, Op.discover p ∈ tr → p.t ≠ sw) →
        registerSwitch (runOps tr) sw uid adm = .error .NotFound) ∧
    (∀ (st : Store) (sw uid owner : String) (r : SwitchRec),
        alookup sw st.switches = some r →
        st.ownerOf sw = some owner → owner ≠ uid →
        registerSwitch st sw uid false = .error .AlreadyOwned) ∧
    (∀ (st : Store) (sw uid : String) (adm : Bool) (r : SwitchRec),
        alookup sw st.switches = some r →
        st.ownerOf sw = none →
        ∃ st', registerSwitch st sw uid adm = .ok st') ∧
    (∀ (st : Store) (sw uid owner : String) (r : SwitchRec),
        alookup sw st.switches = some r →
        st.ownerOf sw = some owner →
        ∃ st', registerSwitch st sw uid true = .ok st') := by
  refine ⟨?_, ?_, ?_, ?_⟩
  · intro tr sw uid adm h
    exact registerSwitch_notFound (not_discovered_runOps h)
  · intro st sw uid owner r h₁ h₂ h₃
    unfold registerSwitch
    split
    · next heq => rw [h₁] at heq; cases heq
    · next r' heq =>
      split
      · next owner' heq₂ =>
        rw [h₂] at heq₂
        cases heq₂
        rw [if_pos ⟨h₃, rfl⟩]
      · next heq₂ => rw [h₂] at heq₂; cases heq₂
  · intro st sw uid adm r h₁ h₂
    unfold registerSwitch
    split
    · next heq => rw [h₁] at heq; cases heq
    · next r' heq =>
      split
      · next owner' heq₂ => rw [h₂] at heq₂; cases heq₂
      · next heq₂ => exact ⟨_, rfl⟩
  · intro st sw uid owner r h₁ h₂
    unfold registerSwitch
    split
    · next heq => rw [h₁] at heq; cases heq
    · next r' heq =>
      split
      · next owner' heq₂ =>
        exact ⟨_, if_neg (fun hc => Bool.noConfusion hc.2)⟩
      · next heq₂ => rw [h₂] at heq₂; cases heq₂

/-- Witness for C2 at concrete inputs: an empty trace (nothing discovered), a
non-admin conflict, a self-registration of an unowned switch, and an admin
reassignment. -/
theorem C2_registerSwitch_errors_witness :
    registerSwitch (runOps []) "s1" "u1" false = .error .NotFound ∧
    registerSwitch stOwned "s1" "u2" false = .error .AlreadyOwned ∧
    (∃ st', registerSwitch stUnowned "s1" "u1" false = .ok st') ∧
    (∃ st', registerSwitch stOwned "s1" "u2" true = .ok st') :=
  ⟨C2_registerSwitch_errors.1 [] "s1" "u1" false
     (fun p hp => absurd hp (List.not_mem_nil _)),
   C2_registerSwitch_errors.2.1 stOwned "s1" "u2" "u1" recA rfl rfl (by decide),
   C2_registerSwitch_errors.2.2.1 stUnowned "s1" "u1" false recA rfl rfl,
   C2_registerSwitch_errors.2.2.2 stOwned "s1" "u2" "u1" recA rfl rfl⟩

/-- C3: a bother whose target resolves to a single User with no registered
switch or `botherEnabled = false` returns the explicit error `NotEligible`;
a bother whose target resolves to a Group activates exactly the members with
a registered switch and `botherEnabled = true`, reports every other member as
skipped in the per-target outcomes, and never aborts the remaining members. -/
theorem C3_bother_eligibility :
    (∀ (st : Store) (caller name : String) (d : Nat) (u : User),
        alookup name st.users = some u →
        (u.switchId = none ∨ u.botherEnabled = false) →
        bother st caller name d = .error .NotEligible) ∧
    (∀ (st : Store) (caller name : String) (d : Nat) (ms : List String),
        alookup name st.users = none →
        alookup name st.groups = some ms →
        ∃ outs, bother st caller name d = .ok outs ∧
          outs.length = ms.length ∧
          (∀ m ∈ ms, eligibleB st m = true →
            ∃ sw, st.userSwitch m = some sw ∧ BotherOutcome.activated m sw ∈ outs) ∧
          (∀ m ∈ ms, eligibleB st m = false → BotherOutcome.skipped m ∈ outs) ∧
          (∀ m sw, BotherOutcome.activated m sw ∈ outs →
            m ∈ ms ∧ eligibleB st m = true ∧ st.userSwitch m = some sw)) := by
  constructor
  · intro st caller name d u hu hcond
    have hres : resolveTarget st name = some (.user name) := by
      unfold resolveTarget
      rw [hu]
    unfold bother
    split
    · next heq => rw [hres] at heq; cases heq
    · next uid heq =>
      rw [hres] at heq
      cases heq
      split
      · next heq₂ => rw [hu] at heq₂; cases heq₂
      · next u' heq₂ =>
        rw [hu] at heq₂
        cases heq₂
        rcases hcond with hsw | hbe
        · by_cases hb : u.botherEnabled
          · rw [if_pos hb]
            split
            · next sw heq₃ => rw [hsw] at heq₃; cases heq₃
            · rfl
          · rw [if_neg hb]
        · rw [if_neg (by rw [hbe]; exact Bool.noConfusion)]
    · next ms heq => rw [hres] at heq; cases heq
  · intro st caller name d ms hu hg
    have hres : resolveTarget st name = some (.group ms) := by
      unfold resolveTarget
      rw [hu, hg]
    have hbo : bother st caller name d = .ok (ms.map (fun m =>
        match alookup m st.users with
        | some u =>
          if u.botherEnabled then
            match u.switchId with
            | some sw => BotherOutcome.activated m sw
            | none => BotherOutcome.skipped m
          else BotherOutcome.skipped m
        | none => BotherOutcome.skipped m)) := by
      unfold bother
      rw [hres]
    refine ⟨_, hbo, by simp, ?_, ?_, ?_⟩
    · intro m hm helig
      unfold eligibleB at helig
      cases hmu : alookup m st.users with
      | none => rw [hmu] at helig; cases helig
      | some u =>
        rw [hmu] at helig
        rcases Bool.and_eq_true_iff.mp helig with ⟨hbe, hss⟩
        rcases Option.isSome_iff_exists.mp hss with ⟨sw, hsw⟩
        refine ⟨sw, ?_, ?_⟩
        · unfold Store.userSwitch
          rw [hmu]
          simp [hsw]
        · exact List.mem_map.mpr ⟨m, hm, by simp [hmu, hbe, hsw]⟩
    · intro m hm helig
      cases hmu : alookup m st.users with
      | none => exact List.mem_map.mpr ⟨m, hm, by simp [hmu]⟩
      | some u =>
        cases hb : u.botherEnabled with
        | false => exact List.mem_map.mpr ⟨m, hm, by simp [hmu, hb]⟩
        | true =>
          cases hs : u.switchId with
          | none => exact List.mem_map.mpr ⟨m, hm, by simp [hmu, hb, hs]⟩
          | some sw =>
            exfalso
            simp [eligibleB, hmu, hb, hs] at helig
    · intro m sw hmem
      rcases List.mem_map.mp hmem with ⟨m', hm', hf⟩
      cases hmu : alookup m' st.users with
      | none => rw [hmu] at hf; cases hf
      | some u =>
        rw [hmu] at hf
        cases hb : u.botherEnabled with
        | false => simp [hb] at hf
        | true =>
          cases hs : u.switchId with
          | none => simp [hb, hs] at hf
          | some sw' =>
            simp only [hb, hs, if_true] at hf
            cases hf
            refine ⟨hm', ?_, ?_⟩
            · simp [eligibleB, hmu, hb, hs]
            · unfold Store.userSwitch
              rw [hmu]
              simp [hs]

/-- A store with one opted-out user `alice` and a group `team` whose members
`m1` (eligible) and `m2` (no switch) differ in eligibility. -/
def stBother : Store :=
  { users := [("alice", { isAdmin := false, botherEnabled := false, switchId := some "sA" }),
              ("m1", { isAdmin := false, botherEnabled := true, switchId := some "s1" }),
              ("m2", { isAdmin := false, botherEnabled := true, switchId := none })],
    switches := [("sA", recA), ("s1", recA)],
    groups := [("team", ["m1", "m2"])] }

/-- Witness for C3 at concrete inputs: bothering the opted-out `alice` is
rejected, and bothering the group `team` activates exactly `m1` and skips
`m2`. -/
theorem C3_bother_eligibility_witness :
    bother stBother "bob" "alice" 15 = .error .NotEligible ∧
    (∃ outs, bother stBother "bob" "team" 15 = .ok outs ∧
      outs.length = (["m1", "m2"] : List String).length ∧
      (∀ m ∈ (["m1", "m2"] : List String), eligibleB stBother m = true →
        ∃ sw, stBother.userSwitch m = some sw ∧ BotherOutcome.activated m sw ∈ outs) ∧
      (∀ m ∈ (["m1", "m2"] : List String), eligibleB stBother m = false →
        BotherOutcome.skipped m ∈ outs) ∧
      (∀ m sw, BotherOutcome.activated m sw ∈ outs →
        m ∈ (["m1", "m2"] : List String) ∧ eligibleB stBother m = true ∧
        stBother.userSwitch m = some sw)) :=
  ⟨C3_bother_eligibility.1 stBother "bob" "alice" 15
     { isAdmin := false, botherEnabled := false, switchId := some "sA" } rfl
     (Or.inr rfl),
   C3_bother_eligibility.2 stBother "bob" "team" 15 ["m1", "m2"] rfl rfl⟩

/-- C9: `resolveTarget(name)` returns the single User when both a User and a
Group carry the name (User precedence); returns the Group's member set when
only a Group matches; returns the User when only a User matches. -/
theorem C9_resolveTarget_precedence :
    (∀ (st : Store) (name : String) (u : User) (ms : List String),
        alookup name st.users = some u → alookup name st.groups = some ms →
        resolveTarget st name = some (.user name)) ∧
    (∀ (st : Store) (name : String) (ms : List String),
        alookup name st.users = none → alookup name st.groups = some ms →
        resolveTarget st name = some (.group ms)) ∧
    (∀ (st : Store) (name : String) (u : User),
        alookup name st.users = some u → alookup name st.groups = none →
        resolveTarget st name = some (.user name)) := by
  refine ⟨?_, ?_, ?_⟩
  · intro st name u ms hu hg
    unfold resolveTarget
    rw [hu]
  · intro st name ms hu hg
    unfold resolveTarget
    rw [hu, hg]
  · intro st name u hu hg
    unfold resolveTarget
    rw [hu]

/-- A store where the name `x` denotes both a User and a Group, `y` only a
Group, and `z` only a User. -/
def stNames : Store :=
  { users := [("x", defaultUser), ("z", defaultUser)],
    switches := [],
    groups := [("x", ["a"]), ("y", ["b"])] }

/-- Witness for C9 at concrete inputs: `x` resolves to the User despite the
Group of the same name; `y` to its Group; `z` to its User. -/
theorem C9_resolveTarget_precedence_witness :
    resolveTarget stNames "x" = some (.user "x") ∧
    resolveTarget stNames "y" = some (.group ["b"]) ∧
    resolveTarget stNames "z" = some (.user "z") :=
  ⟨C9_resolveTarget_precedence.1 stNames "x" defaultUser ["a"] rfl rfl,
   C9_resolveTarget_precedence.2.1 stNames "y" ["b"] rfl rfl,
   C9_resolveTarget_precedence.2.2 stNames "z" defaultUser rfl rfl⟩

/-- C4: an `activate` call made while the tracker records the target switch
as `Offline` returns the `DeviceOffline` outcome, publishes nothing (zero
publishes), and leaves all executor state unchanged. -/
theorem C4_offline_short_circuit :
    ∀ (st : Store) (ex : Executor) (sw : String) (d now : Nat),
      st.trackedState sw = .offline →
      startActivate st ex sw d now = (ex, some .deviceOffline) ∧
      (startActivate st ex sw d now).1.published = ex.published ∧
      (startActivate st ex sw d now).1.pending = ex.pending := by
  intro st ex sw d now h
  have hsc : startActivate st ex sw d now = (ex, some .deviceOffline) := by
    unfold startActivate
    rw [if_pos h]
  exact ⟨hsc, by rw [hsc], by rw [hsc]⟩

/-- Witness for C4 at a concrete offline switch: no publish, executor
untouched, `DeviceOffline` returned. -/
theorem C4_offline_short_circuit_witness :
    startActivate stOff emptyExecutor "s1" 15 0 = (emptyExecutor, some .deviceOffline) ∧
    (startActivate stOff emptyExecutor "s1" 15 0).1.published = emptyExecutor.published ∧
    (startActivate stOff emptyExecutor "s1" 15 0).1.pending = emptyExecutor.pending :=
  C4_offline_short_circuit stOff emptyExecutor "s1" 15 0 rfl

/-- C5: a Sent PendingCommand that receives no matching result within the
bounded timeout (requested duration plus the fixed grace margin) transitions
to `TimedOut` with a `DeviceUnresponsive` outcome and no publish in the
timeout step; and over every executor event sequence, each correlation key is
published at most once — no automatic retry ever occurs for a request. -/
theorem C5_timeout_no_retry :
    (∀ (ex : Executor) (now : Nat) (pc : PendingCommand),
        pc ∈ ex.pending → pc.state = .Sent →
        pc.issuedAt + pc.durationSeconds + graceMargin < now →
        { pc with state := PState.TimedOut } ∈ (tick ex now).1.pending ∧
        (pc.key, Outcome.deviceUnresponsive) ∈ (tick ex now).2 ∧
        (tick ex now).1.published = ex.published) ∧
    (∀ (st : Store) (evs : List ExecEvent) (k : Nat),
        ((runExec st evs).published.filter (fun q => q.1 == k)).length ≤ 1) := by
  constructor
  · intro ex now pc hmem hsent hlt
    have he : isExpired pc now = true := by
      simp [isExpired, hsent, hlt]
    refine ⟨?_, ?_, rfl⟩
    · exact List.mem_map.mpr ⟨pc, hmem, by simp [he]⟩
    · exact List.mem_map.mpr ⟨pc, List.mem_filter.mpr ⟨hmem, he⟩, rfl⟩
  · intro st evs k
    exact filter_key_length_le_one (pubKeysOk_runExec st evs).2 k

/-- A pending Sent command issued at time 0 for 15 seconds. -/
def pcS : PendingCommand :=
  { key := 0, switchId := "s1", durationSeconds := 15, issuedAt := 0, state := .Sent }

/-- An executor with `pcS` in flight and its one publish logged. -/
def exS : Executor :=
  { nextKey := 1, pending := [pcS],
    published := [(0, { topic := cmdTopic "s1", payload := "15000" })] }

/-- Witness for C5 at a concrete Sent command whose deadline (0 + 15 + 5) has
passed at time 21. -/
theorem C5_timeout_no_retry_witness :
    { pcS with state := PState.TimedOut } ∈ (tick exS 21).1.pending ∧
    (pcS.key, Outcome.deviceUnresponsive) ∈ (tick exS 21).2 ∧
    (tick exS 21).1.published = exS.published :=
  C5_timeout_no_retry.1 exS 21 pcS (List.mem_cons_self pcS []) rfl (by decide)

/-- C6: `onDiscoveryEvent` is idempotent — applying the same payload N ≥ 1
times yields a state identical to applying it once — and the first
application for an unseen switch id (field `t`) creates the Switch record
with `online = unknown`. -/
theorem C6_discovery_idempotent :
    (∀ (st : Store) (p : DiscoveryPayload) (n : Nat), 1 ≤ n →
        (fun s => onDiscoveryEvent s p)^[n] st = onDiscoveryEvent st p) ∧
    (∀ (st : Store) (p : DiscoveryPayload), alookup p.t st.switches = none →
        alookup p.t (onDiscoveryEvent st p).switches = some (freshSwitch p) ∧
        (freshSwitch p).online = .unknown) := by
  constructor
  · intro st p n h1
    obtain ⟨m, rfl⟩ := Nat.exists_eq_add_of_le h1
    rw [Nat.add_comm, Function.iterate_succ_apply]
    exact onDiscoveryEvent_iterate_succ p m st
  · exact fun st p h => ⟨onDiscoveryEvent_fresh h, rfl⟩

/-- Witness for C6 at the README's example payload applied twice to the empty
store. -/
theorem C6_discovery_idempotent_witness :
    (fun s => onDiscoveryEvent s pA)^[2] emptyStore = onDiscoveryEvent emptyStore pA ∧
    alookup pA.t (onDiscoveryEvent emptyStore pA).switches = some (freshSwitch pA) ∧
    (freshSwitch pA).online = .unknown :=
  ⟨C6_discovery_idempotent.1 emptyStore pA 2 (by decide),
   C6_discovery_idempotent.2 emptyStore pA rfl⟩

/-- C7: a discovery event — including one whose switch id equals an
already-registered switch — modifies only the switch table: the users (and
so the entire ownership relation, read in either direction) and the groups
are exactly the same before and after, and the operation is total, never an
error. -/
theorem C7_discovery_frame :
    ∀ (st : Store) (p : DiscoveryPayload),
      (onDiscoveryEvent st p).users = st.users ∧
      (∀ u, (onDiscoveryEvent st p).userSwitch u = st.userSwitch u) ∧
      (∀ sw, (onDiscoveryEvent st p).ownerOf sw = st.ownerOf sw) ∧
      (onDiscoveryEvent st p).groups = st.groups := by
  intro st p
  refine ⟨onDiscoveryEvent_users st p, userSwitch_discovery st p, ?_,
    onDiscoveryEvent_groups st p⟩
  intro sw
  unfold Store.ownerOf
  rw [onDiscoveryEvent_users]

/-- C8: an activation that is not short-circuited publishes exactly one
command message, on topic `cmnd/<switch>/TimedPower1`, with the duration
converted to milliseconds as payload; concretely, duration 5 for switch
`tasmota_28D42B` publishes payload `5000` to
`cmnd/tasmota_28D42B/TimedPower1`. -/
theorem C8_publish_topic_payload :
    (∀ (st : Store) (ex : Executor) (sw : String) (d now : Nat),
        st.trackedState sw ≠ .offline →
        (startActivate st ex sw d now).1.published =
          ex.published ++
            [(ex.nextKey, { topic := cmdTopic sw, payload := toString (d * 1000) })] ∧
        (startActivate st ex sw d now).1.published.length = ex.published.length + 1) ∧
    cmdTopic "tasmota_28D42B" = "cmnd/tasmota_28D42B/TimedPower1" ∧
    toString (5 * 1000) = "5000" := by
  refine ⟨?_, rfl, rfl⟩
  intro st ex sw d now h
  unfold startActivate
  rw [if_neg h]
  exact ⟨rfl, by simp⟩

/-- Witness for C8 at a concrete online switch: bothering `alice`'s switch
`tasmota_28D42B` for 5 seconds appends exactly the publish of `5000` to
`cmnd/tasmota_28D42B/TimedPower1`. -/
theorem C8_publish_topic_payload_witness :
    (startActivate stOwned emptyExecutor "s1" 5 0).1.published =
      emptyExecutor.published ++
        [(emptyExecutor.nextKey, { topic := cmdTopic "s1", payload := toString (5 * 1000) })] ∧
    (startActivate stOwned emptyExecutor "s1" 5 0).1.published.length =
      emptyExecutor.published.length + 1 :=
  C8_publish_topic_payload.1 stOwned emptyExecutor "s1" 5 0 (by decide)

/-- C10: the default export of `eleventy.config.js` performs exactly three
registrations on its `eleventyConfig` argument — passthrough copies of
`docs/img/` and `docs/css/` and a `year` shortcode rendering the current
year as a decimal string — and always returns `{dir: {input: "docs"}}`,
independently of the argument. -/
theorem C10_eleventy_default_export :
    ∀ c : EleventyConfig,
      (eleventyDefaultExport c).1.registrations =
        c.registrations ++
          [.passthroughCopy "docs/img/", .passthroughCopy "docs/css/",
           .shortcode "year" yearShortcode] ∧
      (eleventyDefaultExport c).2 = { dir := { input := "docs" } } ∧
      (∀ y : Nat, yearShortcode y = toString y) ∧
      yearShortcode 2026 = "2026" := by
  intro c
  refine ⟨?_, rfl, fun y => rfl, rfl⟩
  simp [eleventyDefaultExport, addPassthroughCopy, addShortcode]

end Airdancer
